import Mathlib

/-!
Shallow embedding of the streaming MySQL-to-delimited-text exporter
(source: src/main.rs, function run and its helpers).

Conventions of the embedding:
* Machine integers delivered by the database driver (i16, i32, i64, u32)
  are modelled as Int or Nat; the driver guarantees the range, and no
  property below depends on overflow.
* A raw column value as delivered by the driver is a constructor of
  RustValue.  The sqlx call row.get::<T>(i) is modelled by a getter
  returning Option: none models a decode failure, which in the source
  panics the process (Row::get unwraps try_get).
* Library rendering of f64 / f32 (shortest round-trip form), of
  chrono DateTime<Local> and of time::Date is carried verbatim inside
  the corresponding RustValue constructor: those textual forms are
  produced by external library code whose exact output no claim below
  inspects (floating-point formatting is not re-specified here).
-/

namespace MysqlToCsv

/-- One result-set column as discovered by the header probe:
the driver-reported name and the driver-reported type tag
(`rows.column(num).name()` and `rows.column(num).type_info().to_string()`). -/
structure ColumnDescriptor where
  name : String
  typeInfo : String
deriving DecidableEq, Repr

/-- A raw column value as delivered by the database driver for one row.
`vNull` models SQL NULL (which no branch of the source decodes). -/
inductive RustValue where
  | vNull : RustValue
  | vDecimal (neg : Bool) (mantissa : Nat) (scale : Nat) : RustValue
  | vF64 (rendered : String) : RustValue
  | vF32 (rendered : String) : RustValue
  | vI16 (n : Int) : RustValue
  | vI32 (n : Int) : RustValue
  | vI64 (n : Int) : RustValue
  | vU32 (n : Nat) : RustValue
  | vDateTime (rendered : String) : RustValue
  | vDate (rendered : String) : RustValue
  | vBytes (bs : List Nat) : RustValue
  | vStr (s : String) : RustValue
deriving DecidableEq, Repr

/-- Model of `row.get::<rust_decimal::Decimal>(num)`. -/
def getDecimal : RustValue → Option (Bool × Nat × Nat)
  | .vDecimal neg m s => some (neg, m, s)
  | _ => none

/-- Model of `row.get::<f64>(num).to_string()` (rendering carried in the value). -/
def getF64 : RustValue → Option String
  | .vF64 r => some r
  | _ => none

/-- Model of `row.get::<f32>(num).to_string()` (rendering carried in the value). -/
def getF32 : RustValue → Option String
  | .vF32 r => some r
  | _ => none

/-- Model of `row.get::<i16>(num)`. -/
def getI16 : RustValue → Option Int
  | .vI16 n => some n
  | _ => none

/-- Model of `row.get::<i32>(num)`. -/
def getI32 : RustValue → Option Int
  | .vI32 n => some n
  | _ => none

/-- Model of `row.get::<i64>(num)`. -/
def getI64 : RustValue → Option Int
  | .vI64 n => some n
  | _ => none

/-- Model of `row.get::<u32>(num)`. -/
def getU32 : RustValue → Option Nat
  | .vU32 n => some n
  | _ => none

/-- Model of `row.get::<chrono::DateTime<chrono::Local>>(num).to_string()`. -/
def getDateTime : RustValue → Option String
  | .vDateTime r => some r
  | _ => none

/-- Model of `row.get::<sqlx::types::time::Date>(num).to_string()`. -/
def getDate : RustValue → Option String
  | .vDate r => some r
  | _ => none

/-- Model of `row.get::<Vec<u8>>(num)`. -/
def getBytes : RustValue → Option (List Nat)
  | .vBytes bs => some bs
  | _ => none

/-- Model of `row.get::<String>(num)` (and of `row.get::<&str>(num)`). -/
def getStr : RustValue → Option String
  | .vStr s => some s
  | _ => none

/-- Left-pad a string with the character '0' to the given width. -/
def padZeros (w : Nat) (s : String) : String :=
  String.mk (List.replicate (w - s.length) '0') ++ s

/-- Model of `rust_decimal::Decimal::to_string`: the mantissa printed with a
decimal point inserted `scale` digits from the right (fraction kept at full
scale width, no scientific notation). -/
def decimalToString (neg : Bool) (mantissa scale : Nat) : String :=
  let intPart := toString (mantissa / 10 ^ scale)
  let frac := padZeros scale (toString (mantissa % 10 ^ scale))
  (if neg then "-" else "") ++ intPart ++ (if scale = 0 then "" else "." ++ frac)

/-- The Unicode replacement character U+FFFD. -/
def repChar : Char := Char.ofNat 0xFFFD

/-- Worker for `utf8Lossy`, structurally recursive on a fuel argument
(each step consumes at least one byte, so fuel = input length suffices).
Follows the maximal-subpart replacement policy of Rust
`String::from_utf8_lossy`: a well-formed prefix of a multi-byte sequence
followed by an invalid byte yields one replacement character and decoding
resumes at the invalid byte. -/
def utf8LossyAux : Nat → List Nat → List Char
  | 0, _ => []
  | _ + 1, [] => []
  | fuel + 1, b :: bs =>
    if b < 0x80 then
      Char.ofNat b :: utf8LossyAux fuel bs
    else if b < 0xC2 then
      -- stray continuation byte or overlong two-byte lead
      repChar :: utf8LossyAux fuel bs
    else if b < 0xE0 then
      match bs with
      | [] => [repChar]
      | b1 :: bs1 =>
        if 0x80 ≤ b1 && b1 < 0xC0 then
          Char.ofNat ((b - 0xC0) * 0x40 + (b1 - 0x80)) :: utf8LossyAux fuel bs1
        else repChar :: utf8LossyAux fuel bs
    else if b < 0xF0 then
      match bs with
      | [] => [repChar]
      | b1 :: bs1 =>
        let lo := if b = 0xE0 then 0xA0 else 0x80
        let hi := if b = 0xED then 0xA0 else 0xC0
        if lo ≤ b1 && b1 < hi then
          match bs1 with
          | [] => [repChar]
          | b2 :: bs2 =>
            if 0x80 ≤ b2 && b2 < 0xC0 then
              Char.ofNat (((b - 0xE0) * 0x40 + (b1 - 0x80)) * 0x40 + (b2 - 0x80))
                :: utf8LossyAux fuel bs2
            else repChar :: utf8LossyAux fuel bs1
        else repChar :: utf8LossyAux fuel bs
    else if b < 0xF5 then
      match bs with
      | [] => [repChar]
      | b1 :: bs1 =>
        let lo := if b = 0xF0 then 0x90 else 0x80
        let hi := if b = 0xF4 then 0x90 else 0xC0
        if lo ≤ b1 && b1 < hi then
          match bs1 with
          | [] => [repChar]
          | b2 :: bs2 =>
            if 0x80 ≤ b2 && b2 < 0xC0 then
              match bs2 with
              | [] => [repChar]
              | b3 :: bs3 =>
                if 0x80 ≤ b3 && b3 < 0xC0 then
                  Char.ofNat ((((b - 0xF0) * 0x40 + (b1 - 0x80)) * 0x40
                      + (b2 - 0x80)) * 0x40 + (b3 - 0x80))
                    :: utf8LossyAux fuel bs3
                else repChar :: utf8LossyAux fuel bs2
            else repChar :: utf8LossyAux fuel bs1
        else repChar :: utf8LossyAux fuel bs
    else
      -- invalid lead byte F5..FF
      repChar :: utf8LossyAux fuel bs

/-- Model of `String::from_utf8_lossy(&bytes).to_string()`. -/
def utf8Lossy (bs : List Nat) : String :=
  String.mk (utf8LossyAux bs.length bs)

/-- The per-column type dispatch of the streaming loop (the `match` on
`&vec_col_type[num][..]` in the source, including the guarded arm
`_ if vec_col_name[num] == cli.repcol`).  A Rust `match` tries its arms in
order and takes the first that applies, which is exactly this if-chain.
Arguments: the column's driver type tag, the column's name, the configured
sanitize-target name (`cli.repcol`), and the raw value.  Returns `none`
when the chosen `row.get` cannot decode the value (a panic in the source). -/
def encodeValue (t colName repcol : String) (v : RustValue) : Option String :=
  if t = "DECIMAL" then
    (getDecimal v).map (fun d => decimalToString d.1 d.2.1 d.2.2)
  else if t = "DOUBLE" then getF64 v
  else if t = "FLOAT" then getF32 v
  else if t = "SMALLINT" ∨ t = "TINYINT" then (getI16 v).map toString
  else if t = "INT" ∨ t = "MEDIUMINT" ∨ t = "INTEGER" then (getI32 v).map toString
  else if t = "BIGINT" then (getI64 v).map toString
  else if t = "INT UNSIGNED" then (getU32 v).map toString
  else if t = "DATETIME" then getDateTime v
  else if t = "DATE" then getDate v
  else if t = "BOOLEAN" ∨ t = "BOOL" then (getI16 v).map toString
  else if t = "TINYBLOB" ∨ t = "BLOB" ∨ t = "MEDIUMBLOB" ∨ t = "LONGBLOB" then
    (getBytes v).map utf8Lossy
  else if t = "CHAR" ∨ t = "VARCHAR" then getStr v
  else if colName = repcol then (getStr v).map (fun s => s.replace "|" "")
  else getStr v

/-- The same dispatch with the sanitize arm removed: the encoding of a run
in which sanitization is disabled (comparison definition for the frame
property of the Column Sanitizer, following the specification's notion of
an unsanitized run). -/
def encodeValuePlain (t : String) (v : RustValue) : Option String :=
  if t = "DECIMAL" then
    (getDecimal v).map (fun d => decimalToString d.1 d.2.1 d.2.2)
  else if t = "DOUBLE" then getF64 v
  else if t = "FLOAT" then getF32 v
  else if t = "SMALLINT" ∨ t = "TINYINT" then (getI16 v).map toString
  else if t = "INT" ∨ t = "MEDIUMINT" ∨ t = "INTEGER" then (getI32 v).map toString
  else if t = "BIGINT" then (getI64 v).map toString
  else if t = "INT UNSIGNED" then (getU32 v).map toString
  else if t = "DATETIME" then getDateTime v
  else if t = "DATE" then getDate v
  else if t = "BOOLEAN" ∨ t = "BOOL" then (getI16 v).map toString
  else if t = "TINYBLOB" ∨ t = "BLOB" ∨ t = "MEDIUMBLOB" ∨ t = "LONGBLOB" then
    (getBytes v).map utf8Lossy
  else if t = "CHAR" ∨ t = "VARCHAR" then getStr v
  else getStr v

/-- The driver type tags that have their own arm in the dispatch (every tag
handled before the guarded sanitize arm is reached). -/
def handledTag (t : String) : Prop :=
  t = "DECIMAL" ∨ t = "DOUBLE" ∨ t = "FLOAT" ∨ t = "SMALLINT" ∨ t = "TINYINT" ∨
  t = "INT" ∨ t = "MEDIUMINT" ∨ t = "INTEGER" ∨ t = "BIGINT" ∨ t = "INT UNSIGNED" ∨
  t = "DATETIME" ∨ t = "DATE" ∨ t = "BOOLEAN" ∨ t = "BOOL" ∨
  t = "TINYBLOB" ∨ t = "BLOB" ∨ t = "MEDIUMBLOB" ∨ t = "LONGBLOB" ∨
  t = "CHAR" ∨ t = "VARCHAR"

instance (t : String) : Decidable (handledTag t) := by
  unfold handledTag
  infer_instance

/-- The inner `for num in 0..col_num` loop of the streaming phase: encode
one fetched row positionally against the discovered columns.  `none` models
the panic of `row.get` (decode failure, or a row shorter than the header).
Positions beyond `col_num` in the row are never read, as in the source. -/
def encodeCells : List ColumnDescriptor → List RustValue → String → Option (List String)
  | [], _, _ => some []
  | _ :: _, [], _ => none
  | c :: cs, v :: vs, repcol =>
    match encodeValue c.typeInfo c.name repcol v, encodeCells cs vs repcol with
    | some s, some rest => some (s :: rest)
    | _, _ => none

/-- The same loop with sanitization disabled (comparison definition). -/
def encodeCellsPlain : List ColumnDescriptor → List RustValue → Option (List String)
  | [], _ => some []
  | _ :: _, [] => none
  | c :: cs, v :: vs =>
    match encodeValuePlain c.typeInfo v, encodeCellsPlain cs vs with
    | some s, some rest => some (s :: rest)
    | _, _ => none

/-- Model of `cli.delim.as_bytes().first().cloned().unwrap_or(b'|')`: the
first character of the configured delimiter string, defaulting to the pipe
character.  (The source takes the first byte; for the single-byte ASCII
delimiters the tool supports, the first byte is the first character.) -/
def firstDelimChar (delim : String) : Char :=
  match delim.data with
  | [] => '|'
  | c :: _ => c

/-- The quoting test of the csv crate writer under its default
`QuoteStyle::Necessary`: a field is quoted when it contains the delimiter,
the quote character, or a record-terminator byte. -/
def needsQuotes (d : Char) (f : String) : Bool :=
  f.data.any (fun c => c = d || c = '"' || c = '\r' || c = '\n')

/-- Double every quote character (the effect of replacing the
single-character pattern quote by two quotes, the csv crate's escape). -/
def escapeQuotes : List Char → List Char
  | [] => []
  | c :: cs => if c = '"' then '"' :: '"' :: escapeQuotes cs else c :: escapeQuotes cs

/-- One field as the csv crate writes it: quoted with internal quotes
doubled when `needsQuotes`, verbatim otherwise. -/
def writeField (d : Char) (f : String) : String :=
  if needsQuotes d f then "\"" ++ String.mk (escapeQuotes f.data) ++ "\"" else f

/-- Join character lists with a single delimiter character between them. -/
def joinChars (d : Char) : List (List Char) → List Char
  | [] => []
  | [g] => g
  | g :: gs => g ++ d :: joinChars d gs

/-- The body (everything before the terminator) of one record as the csv
crate writes it via `wtr.serialize(fields)`: fields quoted as needed and
joined by the delimiter.  A record consisting of a single empty field is
written as a pair of quotes, the csv crate's disambiguation against an
empty record. -/
def recordBody (d : Char) (fs : List String) : String :=
  if fs = [""] then "\"\""
  else String.mk (joinChars d (fs.map (fun f => (writeField d f).data)))

/-- One full record line: body plus the default record terminator. -/
def writeRecord (d : Char) (fs : List String) : String :=
  recordBody d fs ++ "\n"

/-- Split a character list at every occurrence of the delimiter. -/
def splitChars (d : Char) : List Char → List (List Char)
  | [] => [[]]
  | c :: cs =>
    if c = d then [] :: splitChars d cs
    else
      match splitChars d cs with
      | [] => [[c]]
      | g :: gs => (c :: g) :: gs

/-- Reading one produced line back by naive splitting on the delimiter
(the read-back operation of the round-trip property). -/
def splitByDelim (d : Char) (s : String) : List String :=
  (splitChars d s.data).map String.mk

/-- Word character for the purposes of the regex word boundary. -/
def isWordChar (c : Char) : Bool :=
  c.isAlphanum || c = '_'

/-- Whitespace as matched by the regex class backslash-s (ASCII part). -/
def isSpaceRe (c : Char) : Bool :=
  c = ' ' || c = '\t' || c = '\n' || c = '\r' || c = '\x0b' || c = '\x0c'

/-- Case-insensitive literal prefix match; returns the remainder after the
pattern when it matches. -/
def matchCI : List Char → List Char → Option (List Char)
  | [], cs => some cs
  | _ :: _, [] => none
  | p :: ps, c :: cs => if c.toLower = p then matchCI ps cs else none

/-- True when the position starting at the given remainder is a word
boundary coming after a digit (end of input, or a non-word character). -/
def boundaryAfterDigits : List Char → Bool
  | [] => true
  | c :: _ => !isWordChar c

/-- The greedy dot-star at the end of the pattern: consume every character
up to (but not including) the next newline. -/
def dotStar (cs : List Char) : List Char :=
  cs.dropWhile (fun c => c ≠ '\n')

/-- Attempt to match the regex used by the header probe,
`(?i)\blimit\s+\d+(\s*,\s*\d+)?\b.*`, at the current position.
`prevW` says whether the character before this position is a word
character (for the leading word boundary; the first matched character,
l or L, is always a word character).  Returns the remainder after the
whole match (after the greedy dot-star) when the position matches. -/
def matchLimitAt (prevW : Bool) (cs : List Char) : Option (List Char) :=
  if prevW then none
  else
    match matchCI ['l', 'i', 'm', 'i', 't'] cs with
    | none => none
    | some r1 =>
      let sp := r1.span isSpaceRe
      if sp.1.isEmpty then none
      else
        let dg := sp.2.span Char.isDigit
        if dg.1.isEmpty then none
        else
          let r3 := dg.2
          -- the optional group: \s* , \s* \d+ (greedy, tried first)
          let opt : Option (List Char) :=
            match (r3.span isSpaceRe).2 with
            | ',' :: rb =>
              let dg2 := ((rb.span isSpaceRe).2).span Char.isDigit
              if dg2.1.isEmpty then none else some dg2.2
            | _ => none
          match opt with
          | some r4 =>
            if boundaryAfterDigits r4 then some (dotStar r4)
            else if boundaryAfterDigits r3 then some (dotStar r3)
            else none
          | none => if boundaryAfterDigits r3 then some (dotStar r3) else none

/-- Worker for `stripLimit`: scan left to right; at each position that
matches the regex, delete through the end of the line (the greedy dot-star
stops at a newline) and continue after it; otherwise keep the character.
Structurally recursive on a fuel argument (every step consumes at least one
character, so fuel = input length suffices).  After a deletion the
remainder is empty or starts with a newline, at which no match can begin,
so the boundary flag passed there is irrelevant. -/
def stripLimitAux : Nat → Bool → List Char → List Char
  | 0, _, _ => []
  | _ + 1, _, [] => []
  | fuel + 1, prevW, c :: cs =>
    if (matchLimitAt prevW (c :: cs)).isSome then
      stripLimitAux fuel true (dotStar cs)
    else
      c :: stripLimitAux fuel (isWordChar c) cs

/-- Model of `re.replace_all(&cli.sql, "")` for
`re = Regex::new(r"(?i)\blimit\s+\d+(\s*,\s*\d+)?\b.*")`:
every match (each extending to the end of its line) deleted. -/
def stripLimit (s : String) : String :=
  String.mk (stripLimitAux s.data.length false s.data)

/-- Model of `format!("{} LIMIT 10", header_q)`: the text of the bounded
preview query executed by the header probe. -/
def headerQuery (sql : String) : String :=
  stripLimit sql ++ " LIMIT 10"

/-- A driver error as surfaced by sqlx: either an error reported by the
server or driver (carrying its display text), or `RowNotFound` from
`fetch_one` on an empty result set. -/
inductive DbError where
  | rowNotFound : DbError
  | driver (msg : String) : DbError
deriving DecidableEq, Repr

/-- The display text of a driver error (what `{}` formatting produces).
The `rowNotFound` text is the fixed sqlx message. -/
def errString : DbError → String
  | .rowNotFound => "no rows returned by a query that expected to return at least one row"
  | .driver msg => msg

/-- Model of sqlx `fetch_one` applied to the rows a query returns: the
first row, or `RowNotFound` when the result set is empty. -/
def fetchOne {α : Type} (rows : List α) : Except DbError α :=
  match rows with
  | [] => .error .rowNotFound
  | r :: _ => .ok r

/-- The header-probe fetch: the query may itself fail (driver error), and
an empty preview result set turns into `RowNotFound` via `fetch_one`. -/
def probeFetch {α : Type} (res : Except String (List α)) : Except DbError α :=
  match res with
  | .error e => .error (.driver e)
  | .ok rows => fetchOne rows

/-- One line of the run log: `format!("{} => {}\n", timestamp, msg)`. -/
def mkLogLine (ts msg : String) : String :=
  ts ++ " => " ++ msg ++ "\n"

/-- Which row-count query the exporter issues for the progress
denominator. -/
inductive CountQuery where
  | maxOf (indexCol table : String) : CountQuery
  | countAll (table : String) : CountQuery
deriving DecidableEq, Repr

/-- The SQL text of a count query as the source formats it. -/
def countQueryText : CountQuery → String
  | .maxOf idx table => "select max(" ++ idx ++ ") from " ++ table
  | .countAll table => "select count(*) from " ++ table

/-- The denominator choice of the Row Count Estimator (the `match` on
`&cli.index` in the source): with no index, count; with an index name,
max of that column when the name is among the discovered column names,
count otherwise. -/
def denominatorQuery (index : Option String) (colNames : List String)
    (table : String) : CountQuery :=
  match index with
  | none => .countAll table
  | some idx =>
    if colNames.contains idx then .maxOf idx table else .countAll table

/-- The streaming loop over fetched rows: each row is encoded against the
discovered columns and serialized as one record line.  The Bool result is
true when a `row.get` decode failure aborted the loop (a panic in the
source); the lines written before the abort are kept (the csv writer
flushes its buffer when dropped during unwinding). -/
def dataLines (cols : List ColumnDescriptor) (repcol : String) (d : Char) :
    List (List RustValue) → List String × Bool
  | [] => ([], false)
  | row :: rest =>
    match encodeCells cols row repcol with
    | none => ([], true)
    | some fields =>
      let r := dataLines cols repcol d rest
      (writeRecord d fields :: r.1, r.2)

/-- The streaming loop with sanitization disabled (comparison
definition). -/
def dataLinesPlain (cols : List ColumnDescriptor) (d : Char) :
    List (List RustValue) → List String × Bool
  | [] => ([], false)
  | row :: rest =>
    match encodeCellsPlain cols row with
    | none => ([], true)
    | some fields =>
      let r := dataLinesPlain cols d rest
      (writeRecord d fields :: r.1, r.2)

/-- The configuration the exporter consumes (the fields of `Cli` that the
core logic reads). -/
structure Config where
  table : String
  index : Option String
  delim : String
  sql : String
  repcol : String
  output : String

/-- The database's responses for one run: the answer to the rewritten
preview query (a driver error, or the returned rows, each carrying its
column metadata — the source reads only the column names and type tags of
the fetched preview row), and the rows delivered by the main streaming
query. -/
structure RunEnv where
  answerPreview : String → Except String (List (List ColumnDescriptor))
  streamRows : List (List RustValue)

/-- How one run terminates: normal completion, the per-table `Failed`
state (probe error caught, run carries on), or a process-aborting panic
from a row decode failure. -/
inductive RunOutcome where
  | completed : RunOutcome
  | failed : RunOutcome
  | panicked : RunOutcome
deriving DecidableEq, Repr

/-- The observable effects of one run. -/
structure RunResult where
  /-- whether `<output>/<table>` was created -/
  tableDirCreated : Bool
  /-- the CSV file path and its content, when the Ok branch was taken -/
  csvFile : Option (String × String)
  /-- the bytes appended to `<output>/failed.log` (the source appends the
  error message with no trailing newline), when the Err branch was taken -/
  failedLogAppend : Option String
  /-- the lines appended to `<output>/logs.log` -/
  runLogLines : List String
  /-- the count query issued for the progress denominator, when reached -/
  countQueryIssued : Option CountQuery
  outcome : RunOutcome

/-- The exporter run (the body of `run` after the connection and the
initial log-file setup): probe the headers with the rewritten LIMIT-10
query via `fetch_one`; on error, take the Err branch (failure log plus run
log, no per-table directory, no CSV file, run still finishes); on success,
choose the count query, create the per-table directory, write the header
record and then every streamed row, unless a decode panic aborts the
process.  `ts` stands in for the local timestamps. -/
def runExport (cfg : Config) (env : RunEnv) (ts : String) : RunResult :=
  let checkLine := mkLogLine ts ("Checking " ++ cfg.table ++ ", please wait...")
  match probeFetch (env.answerPreview (headerQuery cfg.sql)) with
  | .error e =>
    let errMsg := "Error with " ++ cfg.table ++ ": " ++ errString e
    { tableDirCreated := false
      csvFile := none
      failedLogAppend := some errMsg
      runLogLines := [checkLine, mkLogLine ts errMsg, mkLogLine ts "Done"]
      countQueryIssued := none
      outcome := .failed }
  | .ok cols =>
    let cq := denominatorQuery cfg.index (cols.map ColumnDescriptor.name) cfg.table
    let d := firstDelimChar cfg.delim
    let path := cfg.output ++ "/" ++ cfg.table ++ "/" ++ cfg.table ++ ".csv"
    let headerLine := writeRecord d (cols.map ColumnDescriptor.name)
    let res := dataLines cols cfg.repcol d env.streamRows
    if res.2 then
      { tableDirCreated := true
        csvFile := some (path, headerLine ++ String.join res.1)
        failedLogAppend := none
        runLogLines := [checkLine, mkLogLine ts cfg.table]
        countQueryIssued := some cq
        outcome := .panicked }
    else
      { tableDirCreated := true
        csvFile := some (path, headerLine ++ String.join res.1)
        failedLogAppend := none
        runLogLines := [checkLine, mkLogLine ts cfg.table, mkLogLine ts path,
          mkLogLine ts "Done"]
        countQueryIssued := some cq
        outcome := .completed }

/-! ### Helper lemmas -/

/-- On a type tag without its own dispatch arm, the encoding falls through
to the guarded sanitize arm and the final default arm. -/
theorem encodeValue_unhandled (t colName repcol : String) (v : RustValue)
    (hu : ¬ handledTag t) :
    encodeValue t colName repcol v =
      (if colName = repcol then (getStr v).map (fun s => s.replace "|" "")
       else getStr v) := by
  simp only [handledTag, not_or] at hu
  obtain ⟨h1, h2, h3, h4, h5, h6, h7, h8, h9, h10, h11, h12, h13, h14, h15,
    h16, h17, h18, h19, h20⟩ := hu
  simp only [encodeValue, h1, h2, h3, h4, h5, h6, h7, h8, h9, h10, h11, h12,
    h13, h14, h15, h16, h17, h18, h19, h20, or_self, if_false, ite_false]

/-- A column whose name differs from the sanitize target is encoded exactly
as in a run with sanitization disabled. -/
theorem encodeValue_plain_of_ne (t n repcol : String) (v : RustValue)
    (h : n ≠ repcol) :
    encodeValue t n repcol v = encodeValuePlain t v := by
  simp only [encodeValue, encodeValuePlain, h, if_false, ite_false]

/-! ### C1: the column sanitizer -/

/-- C1, counterexample.  The claim says that with sanitize-target `name`
and delimiter `|`, a `name` value `A|B` is written as `AB`, including when
the column's declared type is CHAR or VARCHAR.  On a VARCHAR column the
dispatch takes the CHAR/VARCHAR arm before the guarded sanitize arm is
ever reached, so the value is written verbatim as `A|B`. -/
theorem c1_counterexample :
    encodeValue "VARCHAR" "name" "name" (RustValue.vStr "A|B") = some "A|B" ∧
    encodeValue "VARCHAR" "name" "name" (RustValue.vStr "A|B") ≠ some "AB" := by
  constructor
  · rfl
  · decide

/-- C1, amended.  Sanitization fires only for a column whose declared type
tag has no dispatch arm of its own (the guarded default arm) and whose
name equals the sanitize target, and what it removes is every occurrence
of the literal character `|`, independent of the configured delimiter; a
matching column of declared type CHAR or VARCHAR is written verbatim. -/
theorem c1_amended_thm (t colName repcol s : String)
    (hu : ¬ handledTag t) (hm : colName = repcol) :
    encodeValue t colName repcol (RustValue.vStr s) = some (s.replace "|" "") ∧
    encodeValue "VARCHAR" colName repcol (RustValue.vStr s) = some s ∧
    encodeValue "CHAR" colName repcol (RustValue.vStr s) = some s := by
  refine ⟨?_, rfl, rfl⟩
  rw [encodeValue_unhandled t colName repcol _ hu, if_pos hm]
  rfl

/-- C1, witness for the amended theorem at a concrete input: a JSON-typed
column named `name`, sanitize target `name`, value `A|B`. -/
theorem c1_amended_witness :
    encodeValue "JSON" "name" "name" (RustValue.vStr "A|B")
      = some ("A|B".replace "|" "") ∧
    encodeValue "VARCHAR" "name" "name" (RustValue.vStr "A|B") = some "A|B" ∧
    encodeValue "CHAR" "name" "name" (RustValue.vStr "A|B") = some "A|B" :=
  c1_amended_thm "JSON" "name" "name" "A|B" (by decide) rfl

/-! ### C5: the header-probe LIMIT rewrite -/

/-- C5, counterexample.  The claim says the query
`SELECT id, name FROM users LIMIT 100000` is rewritten exactly to
`SELECT id, name FROM users LIMIT 10`; the actual rewrite keeps the space
that preceded the deleted LIMIT clause and appends a space of its own,
yielding two consecutive spaces. -/
theorem c5_counterexample :
    headerQuery "SELECT id, name FROM users LIMIT 100000" ≠
      "SELECT id, name FROM users LIMIT 10" := by
  decide

/-- C5, amended.  The rewrite deletes from the first occurrence of the
trailing LIMIT clause through the end of its line and appends a space
followed by `LIMIT 10`; since the whitespace before the deleted clause is
retained, the scenario query is rewritten to
`SELECT id, name FROM users  LIMIT 10` (two spaces before `LIMIT`). -/
theorem c5_amended_thm :
    stripLimit "SELECT id, name FROM users LIMIT 100000"
      = "SELECT id, name FROM users " ∧
    headerQuery "SELECT id, name FROM users LIMIT 100000"
      = "SELECT id, name FROM users  LIMIT 10" := by
  refine ⟨by decide, by decide⟩

/-! ### C6: the progress denominator choice -/

/-- C6, counterexample.  The claim requires the configured index name to
be non-empty for the MAX query to be chosen; the code checks only
membership of the name among the discovered column names, so a configured
empty name (the default the CLI supplies) combined with a discovered
column whose driver-reported name is the empty string (MySQL reports the
value text as the name of a string-literal column, so selecting an empty
literal yields an empty column name) selects MAX, where the claim demands
COUNT(*). -/
theorem c6_counterexample :
    denominatorQuery (some "") [""] "users" = CountQuery.maxOf "" "users" ∧
    denominatorQuery (some "") [""] "users" ≠ CountQuery.countAll "users" := by
  constructor
  · rfl
  · decide

/-- C6, amended.  The denominator is `SELECT MAX(index) FROM table`
exactly when an index name is configured and that name occurs among the
discovered column names — with no non-emptiness requirement on the name;
in every other case (no index configured, or the name absent) it is
`SELECT COUNT(*) FROM table`. -/
theorem c6_amended_thm (index : Option String) (colNames : List String)
    (table : String) :
    (∀ idx, index = some idx → idx ∈ colNames →
      denominatorQuery index colNames table = CountQuery.maxOf idx table) ∧
    (∀ idx, index = some idx → idx ∉ colNames →
      denominatorQuery index colNames table = CountQuery.countAll table) ∧
    (index = none →
      denominatorQuery index colNames table = CountQuery.countAll table) := by
  refine ⟨?_, ?_, ?_⟩
  · rintro idx rfl hmem
    simp [denominatorQuery, hmem]
  · rintro idx rfl hmem
    simp [denominatorQuery, hmem]
  · rintro rfl
    rfl

/-- C6, witness for the amended theorem: index `id` discovered among the
columns selects the MAX query. -/
theorem c6_amended_witness :
    denominatorQuery (some "id") ["id", "name"] "users"
      = CountQuery.maxOf "id" "users" :=
  (c6_amended_thm (some "id") ["id", "name"] "users").1 "id" rfl (by decide)

/-! ### C7: BOOLEAN/BOOL encoding -/

/-- C7: a column tagged BOOLEAN or BOOL is decoded as a 16-bit signed
integer and encoded as the base-10 string of that integer (the Rust
`i16::to_string`, modelled by `toString` on Int). -/
theorem c7_thm (t colName repcol : String) (n : Int)
    (h : t = "BOOLEAN" ∨ t = "BOOL") :
    encodeValue t colName repcol (RustValue.vI16 n) = some (toString n) := by
  rcases h with rfl | rfl <;> rfl

/-- C7, witness: the integer value 1 in a BOOLEAN column encodes as the
string "1", which is not "true". -/
theorem c7_witness :
    encodeValue "BOOLEAN" "flag" "" (RustValue.vI16 1) = some (toString (1 : Int)) ∧
    toString (1 : Int) = "1" ∧ ("1" : String) ≠ "true" :=
  ⟨c7_thm "BOOLEAN" "flag" "" 1 (Or.inl rfl), rfl, by decide⟩

/-! ### C3: the round-trip property of the writer -/

/-- Splitting never yields an empty group list. -/
theorem splitChars_ne_nil (d : Char) : ∀ cs, splitChars d cs ≠ []
  | [] => by simp [splitChars]
  | c :: cs => by
    simp only [splitChars]
    by_cases h : c = d
    · simp [h]
    · rw [if_neg h]
      cases hs : splitChars d cs with
      | nil => simp
      | cons g gs => simp

/-- A delimiter-free character list splits to itself. -/
theorem splitChars_no_delim (d : Char) : ∀ g, d ∉ g → splitChars d g = [g]
  | [], _ => rfl
  | c :: g, h => by
    have hc : ¬ c = d := by
      rintro rfl
      exact h (List.mem_cons_self _ _)
    have hg : d ∉ g := fun hm => h (List.mem_cons_of_mem _ hm)
    rw [splitChars, if_neg hc, splitChars_no_delim d g hg]

/-- Splitting past a delimiter-free prefix followed by one delimiter. -/
theorem splitChars_append (d : Char) (t : List Char) :
    ∀ g, d ∉ g → splitChars d (g ++ d :: t) = g :: splitChars d t
  | [], _ => by simp [splitChars]
  | c :: g, h => by
    have hc : ¬ c = d := by
      rintro rfl
      exact h (List.mem_cons_self _ _)
    have hg : d ∉ g := fun hm => h (List.mem_cons_of_mem _ hm)
    rw [List.cons_append, splitChars, if_neg hc, splitChars_append d t g hg]

/-- Splitting a delimiter-joined list of delimiter-free groups recovers
the groups. -/
theorem splitChars_joinChars (d : Char) :
    ∀ gs, gs ≠ [] → (∀ g ∈ gs, d ∉ g) →
      splitChars d (joinChars d gs) = gs
  | [], h, _ => absurd rfl h
  | [g], _, hall => by
    rw [joinChars, splitChars_no_delim d g (hall g (by simp))]
  | g :: g' :: gs, _, hall => by
    have h1 : joinChars d (g :: g' :: gs) = g ++ d :: joinChars d (g' :: gs) := rfl
    rw [h1, splitChars_append d _ g (hall g (by simp)),
      splitChars_joinChars d (g' :: gs) (by simp)
        (fun x hx => hall x (List.mem_cons_of_mem _ hx))]

/-- C3, counterexample.  The claim says the writer applies no quoting and
that read-back by naive splitting reproduces any delimiter-free string
value, including ones containing quote characters.  The csv crate quotes a
field containing a quote character and doubles the inner quotes, so the
driver-reported VARCHAR value made of the three characters a, quote, b
comes back from a naive split as seven characters. -/
theorem c3_counterexample :
    encodeCells [⟨"id", "INT"⟩, ⟨"c", "VARCHAR"⟩]
        [RustValue.vI32 7, RustValue.vStr "a\"b"] "" = some ["7", "a\"b"] ∧
    writeRecord '|' ["7", "a\"b"] = "7|\"a\"\"b\"\n" ∧
    splitByDelim '|' "7|\"a\"\"b\"" ≠ ["7", "a\"b"] := by
  refine ⟨rfl, by decide, by decide⟩

/-- C3, amended.  For a record of fields none of which needs quoting (no
delimiter, no quote character, no carriage return or newline) — and which
is not the single-empty-field record the csv crate always quotes —
splitting the written record body at the delimiter reproduces the fields
exactly. -/
theorem c3_amended_thm (d : Char) (fs : List String)
    (hq : ∀ f ∈ fs, needsQuotes d f = false)
    (hne : fs ≠ []) (hsingle : fs ≠ [""]) :
    splitByDelim d (recordBody d fs) = fs := by
  have hwf : ∀ f ∈ fs, writeField d f = f := by
    intro f hf
    rw [writeField, hq f hf]
    rfl
  have hmap : fs.map (fun f => (writeField d f).data) = fs.map String.data := by
    apply List.map_congr_left
    intro f hf
    rw [hwf f hf]
  have hnd : ∀ g ∈ fs.map String.data, d ∉ g := by
    intro g hg hd
    obtain ⟨f, hf, rfl⟩ := List.mem_map.mp hg
    have hq' := hq f hf
    rw [needsQuotes, List.any_eq_false] at hq'
    have := hq' d hd
    simp at this
  have hmapne : fs.map String.data ≠ [] := by
    cases fs with
    | nil => exact absurd rfl hne
    | cons a l => simp
  rw [recordBody, if_neg hsingle, splitByDelim]
  show (splitChars d (joinChars d (fs.map fun f => (writeField d f).data))).map String.mk = fs
  rw [hmap, splitChars_joinChars d _ hmapne hnd, List.map_map]
  have : ∀ l : List String, l.map (String.mk ∘ String.data) = l := by
    intro l
    induction l with
    | nil => rfl
    | cons a l ih => simp only [List.map_cons, ih, Function.comp_apply]
  exact this fs

/-- C3, witness for the amended theorem: two plain fields round-trip
through the writer and the naive split. -/
theorem c3_amended_witness :
    splitByDelim '|' (recordBody '|' ["7", "ab"]) = ["7", "ab"] :=
  c3_amended_thm '|' ["7", "ab"] (by decide) (by decide) (by decide)

/-! ### C8: row width and positional correspondence -/

/-- C8: whenever a streamed row is encoded successfully, the encoded row
has exactly as many fields as the discovered column sequence, and for
every position j the header field is the name of column j while the
encoded field at j is the encoding of the row value at j under column j's
type tag — the header order is the decode order. -/
theorem c8_thm (cols : List ColumnDescriptor) (row : List RustValue)
    (repcol : String) (enc : List String)
    (h : encodeCells cols row repcol = some enc) :
    enc.length = cols.length ∧
    ∀ j c, cols.get? j = some c →
      (cols.map ColumnDescriptor.name).get? j = some c.name ∧
      ∃ v s, row.get? j = some v ∧
        encodeValue c.typeInfo c.name repcol v = some s ∧
        enc.get? j = some s := by
  induction cols generalizing row enc with
  | nil =>
    rw [encodeCells] at h
    cases h
    exact ⟨rfl, fun j c hj => by simp at hj⟩
  | cons c cs ih =>
    cases row with
    | nil => exact absurd h (by rw [encodeCells]; exact fun hx => by cases hx)
    | cons v vs =>
      rw [encodeCells] at h
      cases hv : encodeValue c.typeInfo c.name repcol v with
      | none => rw [hv] at h; cases h
      | some s =>
        cases hrest : encodeCells cs vs repcol with
        | none => rw [hv, hrest] at h; cases h
        | some rest =>
          rw [hv, hrest] at h
          cases h
          obtain ⟨ih1, ih2⟩ := ih vs rest hrest
          constructor
          · simp [ih1]
          · intro j cj hj
            cases j with
            | zero =>
              rw [List.get?] at hj
              cases hj
              exact ⟨rfl, v, s, rfl, hv, rfl⟩
            | succ j => exact ih2 j cj hj

/-- C8, witness at a concrete input: one VARCHAR column, one row. -/
theorem c8_witness :
    (["x"] : List String).length
        = ([⟨"c", "VARCHAR"⟩] : List ColumnDescriptor).length ∧
    ∀ j c, ([⟨"c", "VARCHAR"⟩] : List ColumnDescriptor).get? j = some c →
      (([⟨"c", "VARCHAR"⟩] : List ColumnDescriptor).map
          ColumnDescriptor.name).get? j = some c.name ∧
      ∃ v s, ([RustValue.vStr "x"] : List RustValue).get? j = some v ∧
        encodeValue c.typeInfo c.name "" v = some s ∧
        (["x"] : List String).get? j = some s :=
  c8_thm [⟨"c", "VARCHAR"⟩] [RustValue.vStr "x"] "" ["x"] rfl

/-! ### C9: the sanitizer frame property -/

/-- With the sanitize target absent from the discovered column names,
every row encodes exactly as in a run with sanitization disabled. -/
theorem encodeCells_plain_of_not_mem (repcol : String) :
    ∀ (cols : List ColumnDescriptor),
      repcol ∉ cols.map ColumnDescriptor.name →
      ∀ row, encodeCells cols row repcol = encodeCellsPlain cols row
  | [], _, row => by cases row <;> rfl
  | _ :: _, _, [] => rfl
  | c :: cs, h, v :: vs => by
    have hc : c.name ≠ repcol := by
      rintro rfl
      exact h (List.mem_map.mpr ⟨c, List.mem_cons_self _ _, rfl⟩)
    have hcs : repcol ∉ cs.map ColumnDescriptor.name := by
      intro hm
      rw [List.map_cons] at h
      exact h (List.mem_cons_of_mem _ hm)
    rw [encodeCells, encodeCellsPlain,
      encodeValue_plain_of_ne c.typeInfo c.name repcol v hc,
      encodeCells_plain_of_not_mem repcol cs hcs vs]

/-- C9: the sanitize rule never touches a column whose name differs from
the configured target (its encoding equals the sanitization-disabled
encoding), and when the configured target matches no discovered column
name the whole stream of written record lines is identical to that of a
run with sanitization disabled (a no-op, not an error). -/
theorem c9_thm (cols : List ColumnDescriptor) (repcol : String) :
    (∀ t n v, n ≠ repcol → encodeValue t n repcol v = encodeValuePlain t v) ∧
    (repcol ∉ cols.map ColumnDescriptor.name →
      (∀ row, encodeCells cols row repcol = encodeCellsPlain cols row) ∧
      ∀ d rows, dataLines cols repcol d rows = dataLinesPlain cols d rows) := by
  refine ⟨fun t n v h => encodeValue_plain_of_ne t n repcol v h, fun hnm => ?_⟩
  have hcells := encodeCells_plain_of_not_mem repcol cols hnm
  refine ⟨hcells, fun d rows => ?_⟩
  induction rows with
  | nil => rfl
  | cons row rest ih =>
    rw [dataLines, dataLinesPlain, hcells row, ih]

/-- C9, witness at concrete inputs: a non-matching column is encoded
untouched, and with target `zzz` absent from the columns the encoding of
a row equals the sanitization-disabled encoding. -/
theorem c9_witness :
    encodeValue "JSON" "other" "zzz" (RustValue.vStr "x")
      = encodeValuePlain "JSON" (RustValue.vStr "x") ∧
    encodeCells [⟨"a", "VARCHAR"⟩] [RustValue.vStr "x"] "zzz"
      = encodeCellsPlain [⟨"a", "VARCHAR"⟩] [RustValue.vStr "x"] :=
  ⟨(c9_thm [⟨"a", "VARCHAR"⟩] "zzz").1 "JSON" "other" (RustValue.vStr "x")
      (by decide),
    ((c9_thm [⟨"a", "VARCHAR"⟩] "zzz").2 (by decide)).1
      [RustValue.vStr "x"]⟩

/-! ### C2: decode failures during streaming -/

/-- C2, counterexample.  The claim says an undecodable row value aborts
only the current table with a per-table error recorded to the failure log,
the process continuing as for a QueryError.  A NULL value in a
DECIMAL-tagged column cannot be decoded by `row.get`; the run ends in the
process-aborting panic outcome and nothing is appended to the failure
log. -/
theorem c2_counterexample :
    (runExport ⟨"users", none, "|", "select d from users", "", "./output"⟩
        ⟨fun _ => Except.ok [[⟨"d", "DECIMAL"⟩]], [[RustValue.vNull]]⟩
        "TS").outcome = RunOutcome.panicked ∧
    (runExport ⟨"users", none, "|", "select d from users", "", "./output"⟩
        ⟨fun _ => Except.ok [[⟨"d", "DECIMAL"⟩]], [[RustValue.vNull]]⟩
        "TS").failedLogAppend = none :=
  ⟨rfl, rfl⟩

/-- C2, amended.  A row value that cannot be decoded under its declared
type tag aborts the whole process (the unwrap inside `Row::get` in the
streaming loop), not just the current table: the run ends in the panic
outcome and the failure log receives nothing. -/
theorem c2_amended_thm (cfg : Config) (env : RunEnv) (ts : String)
    (cols : List ColumnDescriptor)
    (hprobe : probeFetch (env.answerPreview (headerQuery cfg.sql))
      = Except.ok cols)
    (hpanic : (dataLines cols cfg.repcol (firstDelimChar cfg.delim)
      env.streamRows).2 = true) :
    (runExport cfg env ts).outcome = RunOutcome.panicked ∧
    (runExport cfg env ts).failedLogAppend = none := by
  unfold runExport
  rw [hprobe]
  simp [hpanic]

/-- C2, witness for the amended theorem at a concrete input. -/
theorem c2_amended_witness :
    (runExport ⟨"t2", none, "|", "select d from t2", "", "./output"⟩
        ⟨fun _ => Except.ok [[⟨"d", "DECIMAL"⟩]], [[RustValue.vNull]]⟩
        "TS").outcome = RunOutcome.panicked ∧
    (runExport ⟨"t2", none, "|", "select d from t2", "", "./output"⟩
        ⟨fun _ => Except.ok [[⟨"d", "DECIMAL"⟩]], [[RustValue.vNull]]⟩
        "TS").failedLogAppend = none :=
  c2_amended_thm _ _ "TS" [⟨"d", "DECIMAL"⟩] rfl rfl

/-! ### C4: the header-probe failure path -/

/-- C4, counterexample.  The claim says the failure log gains a line
formatted `tableName: cause`.  The source formats the entry as
`Error with tableName: cause` (and appends it without a trailing
newline). -/
theorem c4_counterexample :
    (runExport ⟨"users", none, "|", "select 1", "", "./output"⟩
        ⟨fun _ => Except.error "boom", []⟩ "TS").failedLogAppend
      = some "Error with users: boom" ∧
    (runExport ⟨"users", none, "|", "select 1", "", "./output"⟩
        ⟨fun _ => Except.error "boom", []⟩ "TS").failedLogAppend
      ≠ some "users: boom" := by
  refine ⟨rfl, by decide⟩

/-- C4, amended.  When the header-probe query fails, the run transitions
to Failed without crashing the process, no CSV file and no per-table
directory are created, the failure log receives exactly the entry
`Error with tableName: cause` (no trailing newline), and the run log
mirrors it as a timestamped line. -/
theorem c4_amended_thm (cfg : Config) (env : RunEnv) (ts e : String)
    (h : env.answerPreview (headerQuery cfg.sql) = Except.error e) :
    (runExport cfg env ts).outcome = RunOutcome.failed ∧
    (runExport cfg env ts).tableDirCreated = false ∧
    (runExport cfg env ts).csvFile = none ∧
    (runExport cfg env ts).failedLogAppend
      = some ("Error with " ++ cfg.table ++ ": " ++ e) ∧
    (runExport cfg env ts).runLogLines
      = [mkLogLine ts ("Checking " ++ cfg.table ++ ", please wait..."),
         mkLogLine ts ("Error with " ++ cfg.table ++ ": " ++ e),
         mkLogLine ts "Done"] := by
  unfold runExport
  rw [h]
  exact ⟨rfl, rfl, rfl, rfl, rfl⟩

/-- C4, witness for the amended theorem at a concrete input. -/
theorem c4_amended_witness :
    (runExport ⟨"users", none, "|", "select 1", "", "./output"⟩
        ⟨fun _ => Except.error "boom", []⟩ "TS").outcome = RunOutcome.failed ∧
    (runExport ⟨"users", none, "|", "select 1", "", "./output"⟩
        ⟨fun _ => Except.error "boom", []⟩ "TS").tableDirCreated = false ∧
    (runExport ⟨"users", none, "|", "select 1", "", "./output"⟩
        ⟨fun _ => Except.error "boom", []⟩ "TS").csvFile = none ∧
    (runExport ⟨"users", none, "|", "select 1", "", "./output"⟩
        ⟨fun _ => Except.error "boom", []⟩ "TS").failedLogAppend
      = some ("Error with " ++ "users" ++ ": " ++ "boom") ∧
    (runExport ⟨"users", none, "|", "select 1", "", "./output"⟩
        ⟨fun _ => Except.error "boom", []⟩ "TS").runLogLines
      = [mkLogLine "TS" ("Checking " ++ "users" ++ ", please wait..."),
         mkLogLine "TS" ("Error with " ++ "users" ++ ": " ++ "boom"),
         mkLogLine "TS" "Done"] :=
  c4_amended_thm ⟨"users", none, "|", "select 1", "", "./output"⟩
    ⟨fun _ => Except.error "boom", []⟩ "TS" "boom" rfl

/-! ### C10: the empty preview result set -/

/-- C10: the header probe fetches exactly one row of the rewritten
preview query, so a syntactically valid query whose preview result set is
empty makes `fetch_one` fail with the row-not-found error; the table's
export is abandoned (Failed outcome, no CSV file, no per-table directory)
and the failure is logged with the fixed sqlx row-not-found text as the
cause. -/
theorem c10_thm (cfg : Config) (env : RunEnv) (ts : String)
    (h : env.answerPreview (headerQuery cfg.sql) = Except.ok []) :
    fetchOne ([] : List (List ColumnDescriptor))
      = Except.error DbError.rowNotFound ∧
    (runExport cfg env ts).outcome = RunOutcome.failed ∧
    (runExport cfg env ts).csvFile = none ∧
    (runExport cfg env ts).tableDirCreated = false ∧
    (runExport cfg env ts).failedLogAppend
      = some ("Error with " ++ cfg.table ++ ": "
          ++ errString DbError.rowNotFound) := by
  refine ⟨rfl, ?_⟩
  unfold runExport
  rw [h]
  exact ⟨rfl, rfl, rfl, rfl⟩

/-- C10, witness at a concrete input: an empty table behind a valid
query. -/
theorem c10_witness :
    fetchOne ([] : List (List ColumnDescriptor))
      = Except.error DbError.rowNotFound ∧
    (runExport ⟨"users", none, "|", "select * from users where 0 = 1", "",
        "./output"⟩ ⟨fun _ => Except.ok [], []⟩ "TS").outcome
      = RunOutcome.failed ∧
    (runExport ⟨"users", none, "|", "select * from users where 0 = 1", "",
        "./output"⟩ ⟨fun _ => Except.ok [], []⟩ "TS").csvFile = none ∧
    (runExport ⟨"users", none, "|", "select * from users where 0 = 1", "",
        "./output"⟩ ⟨fun _ => Except.ok [], []⟩ "TS").tableDirCreated = false ∧
    (runExport ⟨"users", none, "|", "select * from users where 0 = 1", "",
        "./output"⟩ ⟨fun _ => Except.ok [], []⟩ "TS").failedLogAppend
      = some ("Error with " ++ "users" ++ ": "
          ++ errString DbError.rowNotFound) :=
  c10_thm ⟨"users", none, "|", "select * from users where 0 = 1", "",
    "./output"⟩ ⟨fun _ => Except.ok [], []⟩ "TS" rfl

end MysqlToCsv
